import Mathlib

/-!
# Shallow embedding of the blockchain-demo document ledger

This file embeds the core ledger of the repository — the entity model in
`src/types.ts` and the operations of `src/BlockchainService.ts` (browser
service) and `src/BlockchainServiceNode.ts` (Node service) — and proves the
specification claims about it.

Modelling conventions:
* File contents are byte lists (`List Nat`); the SHA-256 digest supplied by the
  platform (`crypto.subtle.digest` / `crypto.createHash`) is an external
  primitive and is passed in as a function `digest : List Nat → List Nat`
  (its 32-byte output contract appears as a hypothesis where needed).
  Ledger operations that hash content take the whole hash computation as a
  function `hashFn : List Nat → String`.
* The environment clock (`Date.now()`) and randomness (`Math.random()` inside
  `generateBlockId`) are passed as explicit arguments (`now : Nat`, a list of
  random nibbles, or a pre-minted `blockId` string).
* The mutable module-level `transactions` array is passed as explicit state
  (`List Transaction`); a TypeScript function that mutates it and returns `R`
  becomes a Lean function returning `R × List Transaction`, with `void`
  rendered as `Unit`.
* TypeScript `undefined`/`null` results become `Option`.
-/

namespace BlockchainDemo

/-- `UserRole` from src/types.ts. -/
inductive UserRole where
  | BORROWER
  | LENDER
  | TITLE_COMPANY
  | ATTORNEY
  | NOTARY
  | COUNTY_CLERK
deriving DecidableEq

/-- `EventType` from src/types.ts. -/
inductive EventType where
  | UPLOAD
  | VIEW
  | APPROVAL
  | SIGNATURE
  | NOTARIZATION
  | RECORDED
  | REVISION
deriving DecidableEq

/-- Document status union `'DRAFT' | 'APPROVED' | 'SIGNED' | 'RECORDED'` from src/types.ts. -/
inductive DocStatus where
  | DRAFT
  | APPROVED
  | SIGNED
  | RECORDED
deriving DecidableEq

/-- Transaction status union `'OPEN' | 'CLOSING' | 'RECORDED' | 'COMPLETED'` from src/types.ts. -/
inductive TxStatus where
  | OPEN
  | CLOSING
  | RECORDED
  | COMPLETED
deriving DecidableEq

/-- `BlockchainEvent` from src/types.ts.  The open-ended `metadata?: any` bag is
rendered as a string-keyed association list. -/
structure BlockchainEvent where
  id : String
  timestamp : Nat
  type : EventType
  actorId : String
  actorRole : UserRole
  docHash : String
  metadata : List (String × String)
  blockId : String
deriving DecidableEq

/-- `DocumentAsset` from src/types.ts. -/
structure DocumentAsset where
  id : String
  name : String
  type : String
  currentVersion : Nat
  currentHash : String
  status : DocStatus
  events : List BlockchainEvent
deriving DecidableEq

/-- `Transaction` from src/types.ts. -/
structure Transaction where
  id : String
  propertyAddress : String
  loanAmount : Int
  lenderName : String
  borrowerName : String
  status : TxStatus
  createdAt : Nat
  documents : List DocumentAsset
deriving DecidableEq

/-! ## Numeric rendering and hashing helpers

`b.toString(16)` / string interpolation of numbers in the source become
`natToHex` / `natToDec`; `padStart` mirrors `String.prototype.padStart`. -/

/-- Lowercase hexadecimal digit character, as produced by JS `Number.toString(16)`. -/
def hexDigitChar (n : Nat) : Char :=
  if n < 10 then Char.ofNat (48 + n) else Char.ofNat (87 + n)

/-- Decimal digit character, as produced by JS number-to-string conversion. -/
def decDigitChar (n : Nat) : Char :=
  Char.ofNat (48 + n)

/-- Digit-list builder for `natToHex`, structurally recursive on a fuel
argument so that the kernel can evaluate it (any fuel above the value works;
see `natToHexGo_irrel`). -/
def natToHexGo (fuel n : Nat) : List Char :=
  match fuel with
  | 0 => []
  | fuel + 1 =>
    if n < 16 then [hexDigitChar n]
    else natToHexGo fuel (n / 16) ++ [hexDigitChar (n % 16)]

/-- JS `n.toString(16)` for a natural number: lowercase hex, no leading zeros. -/
def natToHex (n : Nat) : String :=
  String.mk (natToHexGo (n + 1) n)

/-- Digit-list builder for `natToDec`, structurally recursive on fuel. -/
def natToDecGo (fuel n : Nat) : List Char :=
  match fuel with
  | 0 => []
  | fuel + 1 =>
    if n < 10 then [decDigitChar n]
    else natToDecGo fuel (n / 10) ++ [decDigitChar (n % 10)]

/-- JS `n.toString()` (decimal) for a natural number. -/
def natToDec (n : Nat) : String :=
  String.mk (natToDecGo (n + 1) n)

/-- `s.padStart(n, c)` from JS. -/
def padStart (s : String) (n : Nat) (c : Char) : String :=
  String.mk (List.replicate (n - s.length) c) ++ s

/-- One byte rendered as two hex characters: `b.toString(16).padStart(2, '0')`
(src/BlockchainService.ts line 33). -/
def hexByte (b : Nat) : String :=
  padStart (natToHex b) 2 '0'

/-- `hashArray.map(b => b.toString(16).padStart(2, '0')).join('')`
(src/BlockchainService.ts line 33): hex-encode a byte list. -/
def hexEncode (bs : List Nat) : String :=
  String.join (bs.map hexByte)

/-- `computeFileHash` from src/BlockchainService.ts (browser service, lines
28–39).  `cryptoAvailable` reflects the `typeof crypto !== 'undefined' &&
crypto.subtle` test; when it fails the function returns the mock string
built from the file name, file size and `Date.now()` (`now`). -/
def computeFileHashWeb (digest : List Nat → List Nat) (cryptoAvailable : Bool)
    (fileName : String) (fileSize : Nat) (content : List Nat) (now : Nat) : String :=
  if cryptoAvailable then
    hexEncode (digest content)
  else
    "mock-hash-" ++ fileName ++ "-" ++ natToDec fileSize ++ "-" ++ natToDec now

/-- `computeFileHash` from src/BlockchainServiceNode.ts (lines 31–36): the
Node crypto library returns the lowercase-hex digest of the file bytes. -/
def computeFileHashNode (digest : List Nat → List Nat) (content : List Nat) : String :=
  hexEncode (digest content)

/-- `generateBlockId` from both service files:
`'0x' + Array.from({length: 64}, () => Math.floor(Math.random() * 16).toString(16)).join('')`.
The 64 random nibbles are passed in as `r`. -/
def generateBlockId (r : List Nat) : String :=
  "0x" ++ String.join (r.map natToHex)

/-! ## Ledger operations -/

/-- The seeded module-level `transactions` array common to both service files
(`Date.now()` at module load is `now`). -/
def initialTransactions (now : Nat) : List Transaction :=
  [ { id := "TX-2024-8492"
    , propertyAddress := "1200 Market St, Philadelphia, PA"
    , loanAmount := 24500000
    , lenderName := "Keystone Commercial Bank"
    , borrowerName := "Market Street Developers LLC"
    , status := TxStatus.OPEN
    , createdAt := now - 100000000
    , documents := [] }
  , { id := "TX-2024-9921"
    , propertyAddress := "450 Technology Dr, Austin, TX"
    , loanAmount := 12000000
    , lenderName := "Austin Debt Fund"
    , borrowerName := "TechSpace PropCo"
    , status := TxStatus.CLOSING
    , createdAt := now - 50000000
    , documents := [] } ]

/-- Construction of a `BlockchainEvent` literal as written in both
`createDocument` and `addEvent`: `id` is `` `evt_${Date.now()}` ``,
`timestamp` is `Date.now()`. -/
def mkEvent (now : Nat) (t : EventType) (actor : String) (role : UserRole)
    (docHash : String) (metadata : List (String × String)) (blockId : String) :
    BlockchainEvent :=
  { id := "evt_" ++ natToDec now
  , timestamp := now
  , type := t
  , actorId := actor
  , actorRole := role
  , docHash := docHash
  , metadata := metadata
  , blockId := blockId }

/-- `transactions.findIndex(t => t.id === transactionId)` followed by
`transactions[txIndex].documents.push(newDoc)`: append `d` to the documents of
the first transaction whose id is `transactionId`, or `none` when the index
search fails. -/
def pushDoc (s : List Transaction) (transactionId : String) (d : DocumentAsset) :
    Option (List Transaction) :=
  match s with
  | [] => none
  | tx :: rest =>
    if tx.id = transactionId then
      some ({ tx with documents := tx.documents ++ [d] } :: rest)
    else
      match pushDoc rest transactionId d with
      | none => none
      | some rest2 => some (tx :: rest2)

/-- The `const newDoc = {...}` literal of `createDocument` (with its single
`newEvent` of type UPLOAD): id `` `DOC-${Date.now()}` ``, version 1,
`currentHash` and the `docHash` of the event both the computed content hash. -/
def newDocAsset (hashFn : List Nat → String) (content : List Nat)
    (fileName : String) (fileSize : Nat) (docType : String) (actor : String)
    (role : UserRole) (now : Nat) (blockId : String) : DocumentAsset :=
  { id := "DOC-" ++ natToDec now
  , name := fileName
  , type := docType
  , currentVersion := 1
  , currentHash := hashFn content
  , status := DocStatus.DRAFT
  , events := [mkEvent now EventType.UPLOAD actor role (hashFn content)
      [("fileName", fileName), ("fileSize", natToDec fileSize)] blockId] }

/-- `createDocument` from src/BlockchainService.ts lines 53–82 and
src/BlockchainServiceNode.ts lines 50–87 (identical ledger logic; the browser
version reads `file.name`/`file.size`, the Node version reads the same data
through the filesystem).  Returns the `DocumentAsset | null` result together
with the updated `transactions` state. -/
def createDocument (hashFn : List Nat → String) (s : List Transaction)
    (transactionId : String) (content : List Nat) (fileName : String)
    (fileSize : Nat) (docType : String) (actor : String) (role : UserRole)
    (now : Nat) (blockId : String) : Option DocumentAsset × List Transaction :=
  let newDoc := newDocAsset hashFn content fileName fileSize docType actor role now blockId
  match pushDoc s transactionId newDoc with
  | none => (none, s)
  | some s2 => (some newDoc, s2)

/-- The body of `addEvent` acting on the found document: `doc.events.push(newEvent)`
followed by the three status-update `if` statements
(src/BlockchainService.ts lines 100–108, src/BlockchainServiceNode.ts lines 112–120). -/
def applyEventToDoc (d : DocumentAsset) (e : BlockchainEvent) (t : EventType) :
    DocumentAsset :=
  let d1 := { d with events := d.events ++ [e] }
  let d2 := if t = EventType.APPROVAL then { d1 with status := DocStatus.APPROVED } else d1
  let d3 := if t = EventType.SIGNATURE then { d2 with status := DocStatus.SIGNED } else d2
  if t = EventType.RECORDED then { d3 with status := DocStatus.RECORDED } else d3

/-- `tx.documents.find(d => d.id === docId)` followed by in-place mutation of
the found document: rebuild the list with the first document whose id is
`docId` replaced by `f` of it, also returning that updated document. -/
def updateFirstDoc (ds : List DocumentAsset) (docId : String)
    (f : DocumentAsset → DocumentAsset) :
    Option (DocumentAsset × List DocumentAsset) :=
  match ds with
  | [] => none
  | d :: rest =>
    if d.id = docId then some (f d, f d :: rest)
    else
      match updateFirstDoc rest docId f with
      | none => none
      | some (r, rest2) => some (r, d :: rest2)

/-- The RECORDED side effect on the owning transaction:
`tx.status = 'RECORDED'` inside `if (type === EventType.RECORDED)`. -/
def recordTx (tx : Transaction) (t : EventType) : Transaction :=
  if t = EventType.RECORDED then { tx with status := TxStatus.RECORDED } else tx

/-- `addEvent` from src/BlockchainServiceNode.ts lines 89–125: scan the
transactions in order for the first one containing a document with id `docId`,
append the new event there, apply the status updates, and return the updated
document (`null` when no transaction contains it).  The browser version
(src/BlockchainService.ts lines 84–112) runs the identical loop but returns
`void`; see `addEventWeb`. -/
def addEvent (s : List Transaction) (docId : String) (t : EventType)
    (actor : String) (role : UserRole) (currentHash : String)
    (metadata : List (String × String)) (now : Nat) (blockId : String) :
    Option DocumentAsset × List Transaction :=
  match s with
  | [] => (none, [])
  | tx :: rest =>
    match updateFirstDoc tx.documents docId
        (fun d => applyEventToDoc d (mkEvent now t actor role currentHash metadata blockId) t) with
    | some (d, ds) => (some d, recordTx { tx with documents := ds } t :: rest)
    | none =>
      let p := addEvent rest docId t actor role currentHash metadata now blockId
      (p.1, tx :: p.2)

/-- `addEvent` from src/BlockchainService.ts lines 84–112: same ledger
mutation as the Node version, but the return type of the function is `void` —
the caller receives `()` whether or not the document was found. -/
def addEventWeb (s : List Transaction) (docId : String) (t : EventType)
    (actor : String) (role : UserRole) (currentHash : String)
    (metadata : List (String × String)) (now : Nat) (blockId : String) :
    Unit × List Transaction :=
  ((), (addEvent s docId t actor role currentHash metadata now blockId).2)

/-- `doc.events.find(e => e.docHash === hash)` lifted over a document list:
first document containing an event whose `docHash` equals `h`, with that
(first matching) event. -/
def findMatchInDocs (ds : List DocumentAsset) (h : String) :
    Option (DocumentAsset × BlockchainEvent) :=
  match ds with
  | [] => none
  | d :: rest =>
    match d.events.find? (fun e => e.docHash == h) with
    | some e => some (d, e)
    | none => findMatchInDocs rest h

/-- The nested scan of `verifyDocument` (identical in both service files):
first transaction/document/event triple, in ledger order, whose event's
`docHash` equals `h`. -/
def scanLedger (s : List Transaction) (h : String) :
    Option (Transaction × DocumentAsset × BlockchainEvent) :=
  match s with
  | [] => none
  | tx :: rest =>
    match findMatchInDocs tx.documents h with
    | some (d, e) => some (tx, d, e)
    | none => scanLedger rest h

/-- Result type of `verifyDocument` in src/BlockchainServiceNode.ts
(lines 127–132): `{ verified; doc?; matchedEvent?; transaction? }`. -/
structure VerificationResult where
  verified : Bool
  doc : Option DocumentAsset
  matchedEvent : Option BlockchainEvent
  transaction : Option Transaction
deriving DecidableEq

/-- Result type of `verifyDocument` in src/BlockchainService.ts (line 114):
`{ verified; doc?; matchedEvent? }` — no transaction field. -/
structure VerificationResultWeb where
  verified : Bool
  doc : Option DocumentAsset
  matchedEvent : Option BlockchainEvent
deriving DecidableEq

/-- `verifyDocument` from src/BlockchainServiceNode.ts lines 127–146. -/
def verifyDocument (hashFn : List Nat → String) (s : List Transaction)
    (content : List Nat) : VerificationResult :=
  match scanLedger s (hashFn content) with
  | some (tx, d, e) =>
    { verified := true, doc := some d, matchedEvent := some e, transaction := some tx }
  | none =>
    { verified := false, doc := none, matchedEvent := none, transaction := none }

/-- `verifyDocument` from src/BlockchainService.ts lines 114–128 (same scan,
no transaction in the result). -/
def verifyDocumentWeb (hashFn : List Nat → String) (s : List Transaction)
    (content : List Nat) : VerificationResultWeb :=
  match scanLedger s (hashFn content) with
  | some (_, d, e) => { verified := true, doc := some d, matchedEvent := some e }
  | none => { verified := false, doc := none, matchedEvent := none }

/-- `getTransactions` from both service files. -/
def getTransactions (s : List Transaction) : List Transaction := s

/-- `getTransaction` from both service files: `transactions.find(t => t.id === id)`. -/
def getTransaction (s : List Transaction) (id : String) : Option Transaction :=
  s.find? (fun t => t.id == id)

/-- `getDocumentHistory` from src/BlockchainServiceNode.ts lines 156–164. -/
def getDocumentHistory (s : List Transaction) (docId : String) :
    Option (List BlockchainEvent) :=
  match s with
  | [] => none
  | tx :: rest =>
    match tx.documents.find? (fun d => d.id == docId) with
    | some d => some d.events
    | none => getDocumentHistory rest docId

/-- `listAllDocuments` from src/BlockchainServiceNode.ts lines 149–154. -/
def listAllDocuments (s : List Transaction) :
    List (Transaction × List DocumentAsset) :=
  s.map (fun tx => (tx, tx.documents))

/-! ## Specification-side notions used in the theorem statements -/

/-- All `(transaction, document, event)` triples of the ledger, in the order
the nested `verifyDocument` loops visit them. -/
def ledgerScan (s : List Transaction) :
    List (Transaction × DocumentAsset × BlockchainEvent) :=
  s.flatMap fun tx => tx.documents.flatMap fun d => d.events.map fun e => (tx, d, e)

/-- Numeric rank of a document status along the spec §4.3 pipeline
DRAFT → APPROVED → SIGNED → RECORDED. -/
def statusRank : DocStatus → Nat
  | DocStatus.DRAFT => 0
  | DocStatus.APPROVED => 1
  | DocStatus.SIGNED => 2
  | DocStatus.RECORDED => 3

/-- The status-update rule actually implemented by `addEvent`: the next status
depends on the event type alone, never on the current status. -/
def nextStatusOfEvent (st : DocStatus) (t : EventType) : DocStatus :=
  match t with
  | EventType.APPROVAL => DocStatus.APPROVED
  | EventType.SIGNATURE => DocStatus.SIGNED
  | EventType.RECORDED => DocStatus.RECORDED
  | _ => st

/-- Pointwise lifting of a relation to lists that may grow at the right end. -/
def pointwiseLe {α : Type} (R : α → α → Prop) (xs ys : List α) : Prop :=
  xs.length ≤ ys.length ∧
    ∀ j (hj : j < xs.length) (hj' : j < ys.length),
      R (xs.get ⟨j, hj⟩) (ys.get ⟨j, hj'⟩)

/-- The old event sequence is an initial segment of the new one. -/
def eventsExtend (d d' : DocumentAsset) : Prop :=
  ∃ tail, d'.events = d.events ++ tail

/-- Every document the transaction had before is still at its position, with
its event sequence only extended. -/
def txExtends (tx tx' : Transaction) : Prop :=
  pointwiseLe eventsExtend tx.documents tx'.documents

/-- Every transaction of the ledger keeps its position and its documents'
event sequences are only extended. -/
def ledgerExtends (s s' : List Transaction) : Prop :=
  pointwiseLe txExtends s s'

/-- Events of type UPLOAD or REVISION: the ones that establish document content
per the `currentHash` invariant of the spec. -/
def isContentEvent (e : BlockchainEvent) : Bool :=
  e.type == EventType.UPLOAD || e.type == EventType.REVISION

/-- The `docHash` of the most recently appended UPLOAD/REVISION event. -/
def lastUploadRevHash (d : DocumentAsset) : Option String :=
  ((d.events.filter isContentEvent).map BlockchainEvent.docHash).getLast?

/-- Number of documents anywhere in the ledger bearing the given id. -/
def countDocsWithId (s : List Transaction) (id : String) : Nat :=
  (s.flatMap fun tx => tx.documents).countP (fun d => d.id == id)

/-- Lowercase hexadecimal character, as in the `^[a-f0-9]$` classes of the spec. -/
def isHexChar (c : Char) : Bool :=
  (48 ≤ c.toNat && c.toNat ≤ 57) || (97 ≤ c.toNat && c.toNat ≤ 102)

/-! ## Structural lemmas about the operations -/

theorem applyEventToDoc_events (d : DocumentAsset) (e : BlockchainEvent) (t : EventType) :
    (applyEventToDoc d e t).events = d.events ++ [e] := by
  cases t <;> rfl

theorem applyEventToDoc_status (d : DocumentAsset) (e : BlockchainEvent) (t : EventType) :
    (applyEventToDoc d e t).status = nextStatusOfEvent d.status t := by
  cases t <;> rfl

theorem applyEventToDoc_id (d : DocumentAsset) (e : BlockchainEvent) (t : EventType) :
    (applyEventToDoc d e t).id = d.id := by
  cases t <;> rfl

theorem applyEventToDoc_currentHash (d : DocumentAsset) (e : BlockchainEvent) (t : EventType) :
    (applyEventToDoc d e t).currentHash = d.currentHash := by
  cases t <;> rfl

theorem applyEventToDoc_neutral (d : DocumentAsset) (e : BlockchainEvent) (t : EventType)
    (h1 : t ≠ EventType.APPROVAL) (h2 : t ≠ EventType.SIGNATURE)
    (h3 : t ≠ EventType.RECORDED) :
    applyEventToDoc d e t = { d with events := d.events ++ [e] } := by
  cases t
  case APPROVAL => exact absurd rfl h1
  case SIGNATURE => exact absurd rfl h2
  case RECORDED => exact absurd rfl h3
  all_goals rfl

theorem recordTx_documents (tx : Transaction) (t : EventType) :
    (recordTx tx t).documents = tx.documents := by
  unfold recordTx; split <;> rfl

theorem recordTx_id (tx : Transaction) (t : EventType) :
    (recordTx tx t).id = tx.id := by
  unfold recordTx; split <;> rfl

theorem recordTx_neutral (tx : Transaction) (t : EventType)
    (h : t ≠ EventType.RECORDED) : recordTx tx t = tx := by
  simp [recordTx, h]

theorem recordTx_recorded (tx : Transaction) :
    recordTx tx EventType.RECORDED = { tx with status := TxStatus.RECORDED } := rfl

theorem updateFirstDoc_eq_none (docId : String) (f : DocumentAsset → DocumentAsset)
    (ds : List DocumentAsset) :
    (∀ d ∈ ds, d.id ≠ docId) → updateFirstDoc ds docId f = none := by
  induction ds with
  | nil => intro _; rfl
  | cons d rest ih =>
    intro h
    have hd : d.id ≠ docId := h d (by simp)
    have hr := ih (fun x hx => h x (by simp [hx]))
    simp [updateFirstDoc, hd, hr]

theorem updateFirstDoc_none_forall (docId : String) (f : DocumentAsset → DocumentAsset)
    (ds : List DocumentAsset) :
    updateFirstDoc ds docId f = none → ∀ d ∈ ds, d.id ≠ docId := by
  induction ds with
  | nil => intro _ d hd; simp at hd
  | cons d0 rest ih =>
    intro h d hd
    by_cases h0 : d0.id = docId
    · simp [updateFirstDoc, h0] at h
    · rcases List.mem_cons.mp hd with rfl | hmem
      · exact h0
      · have hrest : updateFirstDoc rest docId f = none := by
          by_contra hne
          rcases Option.ne_none_iff_exists.mp hne with ⟨pr, hpr⟩
          simp [updateFirstDoc, h0, ← hpr] at h
        exact ih hrest d hmem

theorem updateFirstDoc_eq_some (docId : String) (f : DocumentAsset → DocumentAsset)
    (ds : List DocumentAsset) :
    ∀ r ds', updateFirstDoc ds docId f = some (r, ds') →
      ∃ dpre d0 dpost, ds = dpre ++ d0 :: dpost ∧ (∀ d ∈ dpre, d.id ≠ docId) ∧
        d0.id = docId ∧ r = f d0 ∧ ds' = dpre ++ f d0 :: dpost := by
  induction ds with
  | nil => intro r ds' h; simp [updateFirstDoc] at h
  | cons d rest ih =>
    intro r ds' h
    by_cases hd : d.id = docId
    · simp only [updateFirstDoc, if_pos hd, Option.some.injEq, Prod.mk.injEq] at h
      exact ⟨[], d, rest, rfl, by simp, hd, h.1.symm, by simp [h.2.symm]⟩
    · simp only [updateFirstDoc, if_neg hd] at h
      cases heq : updateFirstDoc rest docId f with
      | none => rw [heq] at h; simp at h
      | some pr =>
        rw [heq] at h
        obtain ⟨r0, rest2⟩ := pr
        simp only [Option.some.injEq, Prod.mk.injEq] at h
        obtain ⟨dpre, d0, dpost, hds, hpre, hid, hr, hds'⟩ := ih r0 rest2 heq
        refine ⟨d :: dpre, d0, dpost, by simp [hds], ?_, hid, by rw [← h.1, hr], ?_⟩
        · intro x hx
          rcases List.mem_cons.mp hx with rfl | hxm
          · exact hd
          · exact hpre x hxm
        · rw [← h.2, hds']; simp

theorem pushDoc_eq_none (txId : String) (d : DocumentAsset) (s : List Transaction) :
    (∀ tx ∈ s, tx.id ≠ txId) → pushDoc s txId d = none := by
  induction s with
  | nil => intro _; rfl
  | cons tx rest ih =>
    intro h
    have hd : tx.id ≠ txId := h tx (by simp)
    have hr := ih (fun x hx => h x (by simp [hx]))
    simp [pushDoc, hd, hr]

theorem pushDoc_eq_some (txId : String) (d : DocumentAsset) (s : List Transaction) :
    ∀ s', pushDoc s txId d = some s' →
      ∃ pre tx post, s = pre ++ tx :: post ∧ (∀ tx0 ∈ pre, tx0.id ≠ txId) ∧
        tx.id = txId ∧
        s' = pre ++ { tx with documents := tx.documents ++ [d] } :: post := by
  induction s with
  | nil => intro s' h; simp [pushDoc] at h
  | cons tx rest ih =>
    intro s' h
    by_cases htx : tx.id = txId
    · simp only [pushDoc, if_pos htx, Option.some.injEq] at h
      exact ⟨[], tx, rest, rfl, by simp, htx, by simp [← h]⟩
    · simp only [pushDoc, if_neg htx] at h
      cases heq : pushDoc rest txId d with
      | none => rw [heq] at h; simp at h
      | some rest2 =>
        rw [heq] at h
        simp only [Option.some.injEq] at h
        obtain ⟨pre, tx0, post, hs, hpre, hid, hs'⟩ := ih rest2 heq
        refine ⟨tx :: pre, tx0, post, by simp [hs], ?_, hid, by rw [← h, hs']; simp⟩
        intro x hx
        rcases List.mem_cons.mp hx with rfl | hxm
        · exact htx
        · exact hpre x hxm

theorem pushDoc_isSome (txId : String) (d : DocumentAsset) (s : List Transaction) :
    (∃ tx ∈ s, tx.id = txId) → (pushDoc s txId d).isSome = true := by
  induction s with
  | nil => intro h; simp at h
  | cons tx rest ih =>
    intro h
    by_cases htx : tx.id = txId
    · simp [pushDoc, htx]
    · obtain ⟨tx0, hmem, hid⟩ := h
      rcases List.mem_cons.mp hmem with rfl | hxm
      · exact absurd hid htx
      · have hr := ih ⟨tx0, hxm, hid⟩
        cases heq : pushDoc rest txId d with
        | none => rw [heq] at hr; simp at hr
        | some rest2 => simp [pushDoc, htx, heq]

theorem addEvent_eq_none (docId : String) (t : EventType) (actor : String)
    (role : UserRole) (ch : String) (md : List (String × String)) (now : Nat)
    (bid : String) (s : List Transaction) :
    (∀ tx ∈ s, ∀ d ∈ tx.documents, d.id ≠ docId) →
      addEvent s docId t actor role ch md now bid = (none, s) := by
  induction s with
  | nil => intro _; rfl
  | cons tx rest ih =>
    intro h
    have h1 : updateFirstDoc tx.documents docId
        (fun d => applyEventToDoc d (mkEvent now t actor role ch md bid) t) = none :=
      updateFirstDoc_eq_none _ _ _ (h tx (by simp))
    have h2 := ih (fun x hx => h x (by simp [hx]))
    simp [addEvent, h1, h2]

theorem addEvent_eq_some (docId : String) (t : EventType) (actor : String)
    (role : UserRole) (ch : String) (md : List (String × String)) (now : Nat)
    (bid : String) (s : List Transaction) :
    ∀ r s', addEvent s docId t actor role ch md now bid = (some r, s') →
      ∃ pre tx post dpre d0 dpost,
        s = pre ++ tx :: post ∧
        (∀ tx0 ∈ pre, ∀ d ∈ tx0.documents, d.id ≠ docId) ∧
        tx.documents = dpre ++ d0 :: dpost ∧
        (∀ d ∈ dpre, d.id ≠ docId) ∧ d0.id = docId ∧
        r = applyEventToDoc d0 (mkEvent now t actor role ch md bid) t ∧
        s' = pre ++ recordTx { tx with documents := dpre ++ r :: dpost } t :: post := by
  induction s with
  | nil => intro r s' h; simp [addEvent] at h
  | cons tx rest ih =>
    intro r s' h
    cases hu : updateFirstDoc tx.documents docId
        (fun d => applyEventToDoc d (mkEvent now t actor role ch md bid) t) with
    | some pr =>
      obtain ⟨d, ds⟩ := pr
      rw [addEvent, hu] at h
      simp only [Prod.mk.injEq, Option.some.injEq] at h
      obtain ⟨dpre, d0, dpost, hds, hpre, hid, hr, hds'⟩ :=
        updateFirstDoc_eq_some _ _ _ d ds hu
      refine ⟨[], tx, rest, dpre, d0, dpost, rfl, by simp, hds, hpre, hid,
        by rw [← h.1, hr], ?_⟩
      rw [← h.2, hds', ← hr, h.1]
      simp
    | none =>
      rw [addEvent, hu] at h
      cases hrec : addEvent rest docId t actor role ch md now bid with
      | mk r1 s1 =>
        rw [hrec] at h
        simp only [Prod.mk.injEq] at h
        obtain ⟨pre, tx0, post, dpre, d0, dpost, hs, hpre, hdocs, hdpre, hid, hr, hs'⟩ :=
          ih r s1 (by rw [hrec, h.1])
        refine ⟨tx :: pre, tx0, post, dpre, d0, dpost, by simp [hs], ?_, hdocs,
          hdpre, hid, hr, by rw [← h.2, hs']; simp⟩
        intro x hx
        rcases List.mem_cons.mp hx with rfl | hxm
        · exact updateFirstDoc_none_forall _ _ _ hu
        · exact hpre x hxm

theorem findMatchInDocs_map_eq (tx : Transaction) (h : String) :
    ∀ (ds : List DocumentAsset),
      ((ds.flatMap fun d => d.events.map fun e => (tx, d, e)).find?
          (fun p => p.2.2.docHash == h)) =
        ((findMatchInDocs ds h).map fun p => (tx, p.1, p.2))
  | [] => rfl
  | d :: rest => by
    rw [List.flatMap_cons, List.find?_append]
    have hcomp : ((fun p : Transaction × DocumentAsset × BlockchainEvent =>
        p.2.2.docHash == h) ∘ fun e => (tx, d, e)) = (fun e => e.docHash == h) := rfl
    rw [List.find?_map, hcomp, findMatchInDocs_map_eq tx h rest]
    cases hev : d.events.find? (fun e => e.docHash == h) with
    | some e => simp [findMatchInDocs, hev]
    | none => simp [findMatchInDocs, hev]

theorem scanLedger_eq (h : String) :
    ∀ (s : List Transaction),
      scanLedger s h = ((ledgerScan s).find? fun p => p.2.2.docHash == h)
  | [] => rfl
  | tx :: rest => by
    rw [ledgerScan, List.flatMap_cons, List.find?_append,
      findMatchInDocs_map_eq tx h tx.documents]
    have hrec := scanLedger_eq h rest
    rw [ledgerScan] at hrec
    rw [← hrec]
    cases hfm : findMatchInDocs tx.documents h with
    | some pr => simp [scanLedger, hfm]
    | none => simp [scanLedger, hfm]

theorem pointwiseLe_refl {α : Type} {R : α → α → Prop} (hR : ∀ a, R a a) :
    ∀ xs : List α, pointwiseLe R xs xs :=
  fun _ => ⟨le_refl _, fun _ _ _ => hR _⟩

theorem pointwiseLe_cons {α : Type} {R : α → α → Prop} {x y : α}
    {xs ys : List α} (h1 : R x y) (h2 : pointwiseLe R xs ys) :
    pointwiseLe R (x :: xs) (y :: ys) := by
  refine ⟨by simpa using Nat.succ_le_succ h2.1, ?_⟩
  intro j hj hj'
  cases j with
  | zero => exact h1
  | succ n => exact h2.2 n (by simpa using hj) (by simpa using hj')

theorem pointwiseLe_append_left {α : Type} {R : α → α → Prop} (hR : ∀ a, R a a)
    {xs ys : List α} (pre : List α) (h : pointwiseLe R xs ys) :
    pointwiseLe R (pre ++ xs) (pre ++ ys) := by
  induction pre with
  | nil => simpa using h
  | cons a l ih => simpa using pointwiseLe_cons (hR a) ih

theorem pointwiseLe_append_right {α : Type} {R : α → α → Prop} (hR : ∀ a, R a a)
    (xs ts : List α) : pointwiseLe R xs (xs ++ ts) := by
  refine ⟨by simp, ?_⟩
  intro j hj hj'
  have hg : (xs ++ ts).get ⟨j, hj'⟩ = xs.get ⟨j, hj⟩ := by
    simp only [List.get_eq_getElem]
    exact List.getElem_append_left hj
  rw [hg]
  exact hR _

/-! ## Lemmas about the numeric renderings -/

theorem string_ext {s t : String} (h : s.data = t.data) : s = t := by
  cases s; cases t; simp_all

theorem foldl_append_data (l : List String) :
    ∀ a : String, (l.foldl (· ++ ·) a).data = a.data ++ (l.map String.data).flatten := by
  induction l with
  | nil => intro a; simp
  | cons s rest ih =>
    intro a
    simp only [List.foldl_cons, List.map_cons, List.flatten_cons]
    rw [ih (a ++ s)]
    simp

theorem join_data (l : List String) :
    (String.join l).data = (l.map String.data).flatten := by
  have h := foldl_append_data l ""
  simpa using h

theorem natToHexGo_irrel (fuel1 : Nat) : ∀ fuel2 n, n < fuel1 → n < fuel2 →
    natToHexGo fuel1 n = natToHexGo fuel2 n := by
  induction fuel1 with
  | zero => intro fuel2 n h1 _; omega
  | succ f1 ih =>
    intro fuel2 n h1 h2
    cases fuel2 with
    | zero => omega
    | succ f2 =>
      simp only [natToHexGo]
      by_cases hn : n < 16
      · simp [hn]
      · have hd : n / 16 < n := Nat.div_lt_self (by omega) (by omega)
        rw [if_neg hn, if_neg hn, ih f2 (n / 16) (by omega) (by omega)]

theorem natToHex_eq (n : Nat) :
    natToHex n = if n < 16 then String.mk [hexDigitChar n]
      else natToHex (n / 16) ++ String.mk [hexDigitChar (n % 16)] := by
  by_cases hn : n < 16
  · simp [natToHex, natToHexGo, hn]
  · have hd : n / 16 < n := Nat.div_lt_self (by omega) (by omega)
    have hstep : natToHexGo (n + 1) n =
        natToHexGo n (n / 16) ++ [hexDigitChar (n % 16)] := by
      simp [natToHexGo, hn]
    have hirr : natToHexGo n (n / 16) = natToHexGo (n / 16 + 1) (n / 16) :=
      natToHexGo_irrel n (n / 16 + 1) (n / 16) (by omega) (by omega)
    rw [if_neg hn, natToHex, hstep, hirr]
    rfl

theorem natToDecGo_irrel (fuel1 : Nat) : ∀ fuel2 n, n < fuel1 → n < fuel2 →
    natToDecGo fuel1 n = natToDecGo fuel2 n := by
  induction fuel1 with
  | zero => intro fuel2 n h1 _; omega
  | succ f1 ih =>
    intro fuel2 n h1 h2
    cases fuel2 with
    | zero => omega
    | succ f2 =>
      simp only [natToDecGo]
      by_cases hn : n < 10
      · simp [hn]
      · have hd : n / 10 < n := Nat.div_lt_self (by omega) (by omega)
        rw [if_neg hn, if_neg hn, ih f2 (n / 10) (by omega) (by omega)]

theorem natToDec_eq (n : Nat) :
    natToDec n = if n < 10 then String.mk [decDigitChar n]
      else natToDec (n / 10) ++ String.mk [decDigitChar (n % 10)] := by
  by_cases hn : n < 10
  · simp [natToDec, natToDecGo, hn]
  · have hd : n / 10 < n := Nat.div_lt_self (by omega) (by omega)
    have hstep : natToDecGo (n + 1) n =
        natToDecGo n (n / 10) ++ [decDigitChar (n % 10)] := by
      simp [natToDecGo, hn]
    have hirr : natToDecGo n (n / 10) = natToDecGo (n / 10 + 1) (n / 10) :=
      natToDecGo_irrel n (n / 10 + 1) (n / 10) (by omega) (by omega)
    rw [if_neg hn, natToDec, hstep, hirr]
    rfl

theorem isHexChar_hexDigitChar (n : Nat) (h : n < 16) :
    isHexChar (hexDigitChar n) = true := by
  interval_cases n <;> decide

theorem natToHex_chars (n : Nat) : ∀ c ∈ (natToHex n).data, isHexChar c = true := by
  induction n using Nat.strong_induction_on with
  | _ n ih =>
    intro c hc
    rw [natToHex_eq] at hc
    by_cases h : n < 16
    · rw [if_pos h] at hc
      simp only [String.mk, List.mem_singleton] at hc
      subst hc
      exact isHexChar_hexDigitChar n h
    · rw [if_neg h] at hc
      rw [String.data_append] at hc
      rcases List.mem_append.mp hc with hmem | hmem
      · exact ih (n / 16) (Nat.div_lt_self (by omega) (by omega)) c hmem
      · simp only [String.mk, List.mem_singleton] at hmem
        subst hmem
        exact isHexChar_hexDigitChar (n % 16) (Nat.mod_lt n (by omega))

theorem natToHex_length_of_lt (n : Nat) (h : n < 16) : (natToHex n).length = 1 := by
  rw [natToHex_eq, if_pos h]
  rfl

theorem natToHex_length_of_byte (n : Nat) (h1 : 16 ≤ n) (h2 : n < 256) :
    (natToHex n).length = 2 := by
  rw [natToHex_eq, if_neg (by omega)]
  rw [String.length_append, natToHex_length_of_lt (n / 16) (by omega)]
  rfl

theorem padStart_length (s : String) (n : Nat) (c : Char) :
    (padStart s n c).length = (n - s.length) + s.length := by
  rw [padStart, String.length_append]
  have h1 : (String.mk (List.replicate (n - s.length) c)).length = n - s.length := by
    show (List.replicate (n - s.length) c).length = n - s.length
    exact List.length_replicate _ _
  omega

theorem hexByte_length (b : Nat) (h : b < 256) : (hexByte b).length = 2 := by
  by_cases hb : b < 16
  · rw [hexByte, padStart_length, natToHex_length_of_lt b hb]
  · rw [hexByte, padStart_length, natToHex_length_of_byte b (by omega) h]

theorem hexByte_chars (b : Nat) : ∀ c ∈ (hexByte b).data, isHexChar c = true := by
  intro c hc
  rw [hexByte, padStart, String.data_append] at hc
  rcases List.mem_append.mp hc with hmem | hmem
  · simp only [String.mk] at hmem
    have := List.eq_of_mem_replicate hmem
    subst this
    decide
  · exact natToHex_chars b c hmem

theorem hexEncode_data (bs : List Nat) :
    (hexEncode bs).data = (bs.map (fun b => (hexByte b).data)).flatten := by
  rw [hexEncode, join_data, List.map_map]
  rfl

theorem hexEncode_length (bs : List Nat) (h : ∀ b ∈ bs, b < 256) :
    (hexEncode bs).length = 2 * bs.length := by
  show (hexEncode bs).data.length = 2 * bs.length
  rw [hexEncode_data]
  induction bs with
  | nil => rfl
  | cons b rest ih =>
    simp only [List.map_cons, List.flatten_cons, List.length_append, List.length_cons]
    have hb : (hexByte b).data.length = 2 := hexByte_length b (h b (by simp))
    rw [hb, ih (fun x hx => h x (by simp [hx]))]
    ring

theorem hexEncode_chars (bs : List Nat) :
    ∀ c ∈ (hexEncode bs).data, isHexChar c = true := by
  intro c hc
  rw [hexEncode_data] at hc
  rcases List.mem_flatten.mp hc with ⟨l, hl, hcl⟩
  rcases List.mem_map.mp hl with ⟨b, _, rfl⟩
  exact hexByte_chars b c hcl

theorem isDigit_decDigitChar (n : Nat) (h : n < 10) :
    (decDigitChar n).isDigit = true := by
  interval_cases n <;> decide

theorem natToDec_chars (n : Nat) : ∀ c ∈ (natToDec n).data, c.isDigit = true := by
  induction n using Nat.strong_induction_on with
  | _ n ih =>
    intro c hc
    rw [natToDec_eq] at hc
    by_cases h : n < 10
    · rw [if_pos h] at hc
      simp only [String.mk, List.mem_singleton] at hc
      subst hc
      exact isDigit_decDigitChar n h
    · rw [if_neg h] at hc
      rw [String.data_append] at hc
      rcases List.mem_append.mp hc with hmem | hmem
      · exact ih (n / 10) (Nat.div_lt_self (by omega) (by omega)) c hmem
      · simp only [String.mk, List.mem_singleton] at hmem
        subst hmem
        exact isDigit_decDigitChar (n % 10) (Nat.mod_lt n (by omega))

theorem natToDec_length_pos (n : Nat) : 1 ≤ (natToDec n).length := by
  rw [natToDec_eq]
  by_cases h : n < 10
  · rw [if_pos h]; exact le_refl 1
  · rw [if_neg h, String.length_append]
    have : (String.mk [decDigitChar (n % 10)]).length = 1 := rfl
    omega

theorem natToDec_length_ge (k : Nat) :
    ∀ n : Nat, 10 ^ k ≤ n → k + 1 ≤ (natToDec n).length := by
  induction k with
  | zero => intro n _; exact natToDec_length_pos n
  | succ k ih =>
    intro n hn
    have h10 : ¬ n < 10 := by
      have : (10 : Nat) ^ 1 ≤ 10 ^ (k + 1) := Nat.pow_le_pow_right (by omega) (by omega)
      simp at this
      omega
    rw [natToDec_eq, if_neg h10, String.length_append]
    have hdiv : 10 ^ k ≤ n / 10 := by
      rw [Nat.le_div_iff_mul_le (by omega)]
      calc 10 ^ k * 10 = 10 ^ (k + 1) := (pow_succ 10 k).symm
        _ ≤ n := hn
    have := ih (n / 10) hdiv
    have h1 : (String.mk [decDigitChar (n % 10)]).length = 1 := rfl
    omega

theorem decDigitChar_toNat (n : Nat) (h : n < 10) :
    (decDigitChar n).toNat = 48 + n := by
  interval_cases n <;> rfl

theorem decDigitChar_inj (x y : Nat) (hx : x < 10) (hy : y < 10)
    (h : decDigitChar x = decDigitChar y) : x = y := by
  have ht := congrArg Char.toNat h
  rw [decDigitChar_toNat x hx, decDigitChar_toNat y hy] at ht
  omega

theorem natToDec_data_lt (n : Nat) (h : n < 10) :
    (natToDec n).data = [decDigitChar n] := by
  rw [natToDec_eq, if_pos h]

theorem natToDec_data_ge (n : Nat) (h : ¬ n < 10) :
    (natToDec n).data = (natToDec (n / 10)).data ++ [decDigitChar (n % 10)] := by
  rw [natToDec_eq, if_neg h, String.data_append]

theorem natToDec_inj (a : Nat) : ∀ b : Nat, natToDec a = natToDec b → a = b := by
  induction a using Nat.strong_induction_on with
  | _ a ih =>
    intro b h
    have hdata : (natToDec a).data = (natToDec b).data := by rw [h]
    by_cases ha : a < 10 <;> by_cases hb : b < 10
    · rw [natToDec_data_lt a ha, natToDec_data_lt b hb] at hdata
      simp only [List.cons.injEq] at hdata
      exact decDigitChar_inj a b ha hb hdata.1
    · rw [natToDec_data_lt a ha, natToDec_data_ge b hb] at hdata
      have h1 := natToDec_length_pos (b / 10)
      have h2 : (natToDec (b / 10)).data.length = (natToDec (b / 10)).length := rfl
      have hlen := congrArg List.length hdata
      simp only [List.length_append, List.length_cons, List.length_nil] at hlen
      omega
    · rw [natToDec_data_ge a ha, natToDec_data_lt b hb] at hdata
      have h1 := natToDec_length_pos (a / 10)
      have h2 : (natToDec (a / 10)).data.length = (natToDec (a / 10)).length := rfl
      have hlen := congrArg List.length hdata
      simp only [List.length_append, List.length_cons, List.length_nil] at hlen
      omega
    · rw [natToDec_data_ge a ha, natToDec_data_ge b hb] at hdata
      have hpair := List.append_inj' hdata rfl
      have hdiv : a / 10 = b / 10 :=
        ih (a / 10) (Nat.div_lt_self (by omega) (by omega)) (b / 10)
          (string_ext hpair.1)
      have hmod : a % 10 = b % 10 := by
        have hm := hpair.2
        simp only [List.cons.injEq] at hm
        exact decDigitChar_inj (a % 10) (b % 10) (Nat.mod_lt a (by omega))
          (Nat.mod_lt b (by omega)) hm.1
      have hda := Nat.div_add_mod a 10
      have hdb := Nat.div_add_mod b 10
      omega

theorem docId_inj (now1 now2 : Nat) (h : now1 ≠ now2) :
    "DOC-" ++ natToDec now1 ≠ "DOC-" ++ natToDec now2 := by
  intro heq
  apply h
  apply natToDec_inj
  have hdata : ("DOC-" ++ natToDec now1).data = ("DOC-" ++ natToDec now2).data := by
    rw [heq]
  rw [String.data_append, String.data_append] at hdata
  exact string_ext (List.append_cancel_left hdata)

/-! ## Derived characterizations of the operations -/

theorem createDocument_eq_none (hashFn : List Nat → String) (s : List Transaction)
    (transactionId : String) (content : List Nat) (fileName : String)
    (fileSize : Nat) (docType : String) (actor : String) (role : UserRole)
    (now : Nat) (bid : String) (h : ∀ tx ∈ s, tx.id ≠ transactionId) :
    createDocument hashFn s transactionId content fileName fileSize docType
      actor role now bid = (none, s) := by
  have hp := pushDoc_eq_none transactionId
    (newDocAsset hashFn content fileName fileSize docType actor role now bid) s h
  simp [createDocument, hp]

theorem createDocument_eq_some (hashFn : List Nat → String) (s : List Transaction)
    (transactionId : String) (content : List Nat) (fileName : String)
    (fileSize : Nat) (docType : String) (actor : String) (role : UserRole)
    (now : Nat) (bid : String) :
    ∀ d s', createDocument hashFn s transactionId content fileName fileSize
        docType actor role now bid = (some d, s') →
      d = newDocAsset hashFn content fileName fileSize docType actor role now bid ∧
      pushDoc s transactionId d = some s' := by
  intro d s' h
  rw [createDocument] at h
  cases hp : pushDoc s transactionId
      (newDocAsset hashFn content fileName fileSize docType actor role now bid) with
  | none => rw [hp] at h; simp at h
  | some s2 =>
    rw [hp] at h
    simp only [Prod.mk.injEq, Option.some.injEq] at h
    refine ⟨h.1.symm, ?_⟩
    rw [← h.1, ← h.2]
    exact hp

theorem createDocument_isSome (hashFn : List Nat → String) (s : List Transaction)
    (transactionId : String) (content : List Nat) (fileName : String)
    (fileSize : Nat) (docType : String) (actor : String) (role : UserRole)
    (now : Nat) (bid : String) (h : ∃ tx ∈ s, tx.id = transactionId) :
    ∃ d s', createDocument hashFn s transactionId content fileName fileSize
      docType actor role now bid = (some d, s') := by
  have hs := pushDoc_isSome transactionId
    (newDocAsset hashFn content fileName fileSize docType actor role now bid) s h
  cases hp : pushDoc s transactionId
      (newDocAsset hashFn content fileName fileSize docType actor role now bid) with
  | none => rw [hp] at hs; simp at hs
  | some s2 =>
    exact ⟨newDocAsset hashFn content fileName fileSize docType actor role now bid,
      s2, by simp [createDocument, hp]⟩

theorem addEvent_none_state (docId : String) (t : EventType) (actor : String)
    (role : UserRole) (ch : String) (md : List (String × String)) (now : Nat)
    (bid : String) : ∀ (s : List Transaction) s1,
      addEvent s docId t actor role ch md now bid = (none, s1) → s1 = s := by
  intro s
  induction s with
  | nil => intro s1 h; simpa [addEvent] using h.symm
  | cons tx rest ih =>
    intro s1 h
    cases hu : updateFirstDoc tx.documents docId
        (fun d => applyEventToDoc d (mkEvent now t actor role ch md bid) t) with
    | some pr =>
      obtain ⟨d, ds⟩ := pr
      rw [addEvent, hu] at h
      simp at h
    | none =>
      rw [addEvent, hu] at h
      cases hrec : addEvent rest docId t actor role ch md now bid with
      | mk r1 s2 =>
        rw [hrec] at h
        simp only [Prod.mk.injEq] at h
        have := ih s2 (by rw [hrec, h.1])
        rw [← h.2, this]

theorem eventsExtend_refl (d : DocumentAsset) : eventsExtend d d :=
  ⟨[], by simp⟩

theorem txExtends_refl (tx : Transaction) : txExtends tx tx :=
  pointwiseLe_refl eventsExtend_refl tx.documents

theorem ledgerExtends_refl (s : List Transaction) : ledgerExtends s s :=
  pointwiseLe_refl txExtends_refl s

/-! ## Claim theorems -/

/-- C3 (amended): for a document id that exists nowhere in the ledger,
`addEvent` appends no event and changes no document or transaction status —
the returned state is exactly the input state.  The Node implementation
reports the miss as `null` (here `none`); the return type of the browser implementation
is `void` (here `()`), so its caller receives no signal at all. -/
theorem claim3_addEvent_not_found (s : List Transaction) (docId : String)
    (t : EventType) (actor : String) (role : UserRole) (ch : String)
    (md : List (String × String)) (now : Nat) (bid : String)
    (h : ∀ tx ∈ s, ∀ d ∈ tx.documents, d.id ≠ docId) :
    addEvent s docId t actor role ch md now bid = (none, s) ∧
    addEventWeb s docId t actor role ch md now bid = ((), s) := by
  have hn := addEvent_eq_none docId t actor role ch md now bid s h
  exact ⟨hn, by simp [addEventWeb, hn]⟩

/-- Witness for C3: on the seeded ledger, adding an event to the unknown id
`DOC-none` returns the absence marker and the unchanged state. -/
theorem claim3_witness :
    addEvent (initialTransactions 0) "DOC-none" EventType.VIEW "a@x.com"
        UserRole.LENDER "h" [] 1 "0xb" = (none, initialTransactions 0) ∧
    addEventWeb (initialTransactions 0) "DOC-none" EventType.VIEW "a@x.com"
        UserRole.LENDER "h" [] 1 "0xb" = ((), initialTransactions 0) :=
  claim3_addEvent_not_found (initialTransactions 0) "DOC-none" EventType.VIEW
    "a@x.com" UserRole.LENDER "h" [] 1 "0xb" (by decide)

/-- Counterexample for C3 as frozen: the browser `addEvent` returns `void`,
so the value the caller receives for an unknown document id is identical to
the value received for a successful append — the `DocumentNotFound` condition
is silently ignored rather than reported (the Node return does distinguish
the two).  The state is nevertheless unchanged on the miss. -/
theorem claim3_counterexample :
    (addEventWeb ((createDocument (fun _ => "h1") (initialTransactions 0)
        "TX-2024-8492" [0] "note.txt" 1 "Note" "a@x.com" UserRole.ATTORNEY 5 "0xaa").2)
        "DOC-missing" EventType.APPROVAL "l@x.com" UserRole.LENDER "h1" [] 6 "0xbb").1 =
      (addEventWeb ((createDocument (fun _ => "h1") (initialTransactions 0)
        "TX-2024-8492" [0] "note.txt" 1 "Note" "a@x.com" UserRole.ATTORNEY 5 "0xaa").2)
        "DOC-5" EventType.APPROVAL "l@x.com" UserRole.LENDER "h1" [] 6 "0xbb").1 ∧
    (addEventWeb ((createDocument (fun _ => "h1") (initialTransactions 0)
        "TX-2024-8492" [0] "note.txt" 1 "Note" "a@x.com" UserRole.ATTORNEY 5 "0xaa").2)
        "DOC-missing" EventType.APPROVAL "l@x.com" UserRole.LENDER "h1" [] 6 "0xbb").2 =
      (createDocument (fun _ => "h1") (initialTransactions 0)
        "TX-2024-8492" [0] "note.txt" 1 "Note" "a@x.com" UserRole.ATTORNEY 5 "0xaa").2 ∧
    (addEvent ((createDocument (fun _ => "h1") (initialTransactions 0)
        "TX-2024-8492" [0] "note.txt" 1 "Note" "a@x.com" UserRole.ATTORNEY 5 "0xaa").2)
        "DOC-missing" EventType.APPROVAL "l@x.com" UserRole.LENDER "h1" [] 6 "0xbb").1 = none ∧
    (addEvent ((createDocument (fun _ => "h1") (initialTransactions 0)
        "TX-2024-8492" [0] "note.txt" 1 "Note" "a@x.com" UserRole.ATTORNEY 5 "0xaa").2)
        "DOC-5" EventType.APPROVAL "l@x.com" UserRole.LENDER "h1" [] 6 "0xbb").1 ≠ none := by
  decide

/-- C4: for a known transaction id, `createDocument` returns a fresh
`DocumentAsset` in DRAFT with version 1, exactly one UPLOAD event whose
`docHash` equals the content hash and equals the `currentHash` of the document,
appended at the end of the document collection of that transaction; for an unknown
id it returns the typed absence (`null`) and leaves the ledger unchanged. -/
theorem claim4_createDocument (hashFn : List Nat → String) (s : List Transaction)
    (transactionId : String) (content : List Nat) (fileName : String)
    (fileSize : Nat) (docType : String) (actor : String) (role : UserRole)
    (now : Nat) (bid : String) :
    ((∀ tx ∈ s, tx.id ≠ transactionId) →
      createDocument hashFn s transactionId content fileName fileSize docType
        actor role now bid = (none, s)) ∧
    ((∃ tx ∈ s, tx.id = transactionId) →
      ∃ d s', createDocument hashFn s transactionId content fileName fileSize
        docType actor role now bid = (some d, s')) ∧
    (∀ d s', createDocument hashFn s transactionId content fileName fileSize
        docType actor role now bid = (some d, s') →
      d.status = DocStatus.DRAFT ∧ d.currentVersion = 1 ∧
      d.currentHash = hashFn content ∧
      (∃ e, d.events = [e] ∧ e.type = EventType.UPLOAD ∧
        e.docHash = hashFn content ∧ e.docHash = d.currentHash) ∧
      ∃ pre tx post, s = pre ++ tx :: post ∧ (∀ tx0 ∈ pre, tx0.id ≠ transactionId) ∧
        tx.id = transactionId ∧
        s' = pre ++ { tx with documents := tx.documents ++ [d] } :: post) := by
  refine ⟨fun h => createDocument_eq_none hashFn s transactionId content fileName
      fileSize docType actor role now bid h,
    fun h => createDocument_isSome hashFn s transactionId content fileName
      fileSize docType actor role now bid h, ?_⟩
  intro d s' h
  obtain ⟨hd, hpush⟩ := createDocument_eq_some hashFn s transactionId content
    fileName fileSize docType actor role now bid d s' h
  subst hd
  refine ⟨rfl, rfl, rfl,
    ⟨mkEvent now EventType.UPLOAD actor role (hashFn content)
      [("fileName", fileName), ("fileSize", natToDec fileSize)] bid,
      rfl, rfl, rfl, rfl⟩, ?_⟩
  exact pushDoc_eq_some transactionId _ s s' hpush

/-- Witness for C4: on the seeded ledger, creation under an unknown
transaction id returns the absence and the unchanged state, and creation
under `TX-2024-8492` yields a document in DRAFT status. -/
theorem claim4_witness :
    createDocument hexEncode (initialTransactions 0) "TX-none" [0] "a.txt" 1
        "Deed" "x@y.com" UserRole.ATTORNEY 5 "0xaa" = (none, initialTransactions 0) ∧
    (createDocument hexEncode (initialTransactions 0) "TX-2024-8492" [0] "a.txt" 1
        "Deed" "x@y.com" UserRole.ATTORNEY 5 "0xaa").1.map DocumentAsset.status =
      some DocStatus.DRAFT := by
  constructor
  · exact (claim4_createDocument hexEncode (initialTransactions 0) "TX-none" [0]
      "a.txt" 1 "Deed" "x@y.com" UserRole.ATTORNEY 5 "0xaa").1 (by decide)
  · obtain ⟨d, s', hds⟩ := (claim4_createDocument hexEncode (initialTransactions 0)
      "TX-2024-8492" [0] "a.txt" 1 "Deed" "x@y.com" UserRole.ATTORNEY 5 "0xaa").2.1
      (by decide)
    have hfacts := (claim4_createDocument hexEncode (initialTransactions 0)
      "TX-2024-8492" [0] "a.txt" 1 "Deed" "x@y.com" UserRole.ATTORNEY 5 "0xaa").2.2
      d s' hds
    rw [hds]
    simp [hfacts.1]

/-- C5: the mutating core operations are append-only with respect to events:
every transaction keeps its position, every pre-existing document keeps its
position, and for each pre-existing document the event sequence before the
operation is an initial segment of its event sequence afterwards (so the
fields of previously appended events never change).  The read accessors
(`getTransactions`, `getTransaction`, `getDocumentHistory`,
`listAllDocuments`, `verifyDocument`) are stateless in this embedding and
cannot mutate. -/
theorem claim5_append_only (hashFn : List Nat → String) (s : List Transaction)
    (transactionId : String) (content : List Nat) (fileName : String)
    (fileSize : Nat) (docType : String) (actor : String) (role : UserRole)
    (now : Nat) (bid : String) (docId : String) (t : EventType) (ch : String)
    (md : List (String × String)) :
    ledgerExtends s (createDocument hashFn s transactionId content fileName
      fileSize docType actor role now bid).2 ∧
    ledgerExtends s (addEvent s docId t actor role ch md now bid).2 := by
  constructor
  · cases hp : pushDoc s transactionId
        (newDocAsset hashFn content fileName fileSize docType actor role now bid) with
    | none =>
      have hstate : (createDocument hashFn s transactionId content fileName
          fileSize docType actor role now bid).2 = s := by
        simp [createDocument, hp]
      rw [hstate]
      exact ledgerExtends_refl s
    | some s2 =>
      have hstate : (createDocument hashFn s transactionId content fileName
          fileSize docType actor role now bid).2 = s2 := by
        simp [createDocument, hp]
      rw [hstate]
      obtain ⟨pre, tx, post, hs, hpre, hid, hs2⟩ :=
        pushDoc_eq_some transactionId _ s s2 hp
      rw [hs, hs2]
      apply pointwiseLe_append_left txExtends_refl
      apply pointwiseLe_cons _ (pointwiseLe_refl txExtends_refl post)
      exact pointwiseLe_append_right eventsExtend_refl tx.documents _
  · cases he : addEvent s docId t actor role ch md now bid with
    | mk r1 s1 =>
      cases r1 with
      | none =>
        have hst := addEvent_none_state docId t actor role ch md now bid s s1 he
        show ledgerExtends s s1
        rw [hst]
        exact ledgerExtends_refl s
      | some r =>
        obtain ⟨pre, tx, post, dpre, d0, dpost, hs, hpre, hdocs, hdpre, hid, hr, hs'⟩ :=
          addEvent_eq_some docId t actor role ch md now bid s r s1 he
        show ledgerExtends s s1
        rw [hs, hs']
        apply pointwiseLe_append_left txExtends_refl
        apply pointwiseLe_cons _ (pointwiseLe_refl txExtends_refl post)
        show pointwiseLe eventsExtend tx.documents
          (recordTx { tx with documents := dpre ++ r :: dpost } t).documents
        rw [recordTx_documents]
        show pointwiseLe eventsExtend tx.documents (dpre ++ r :: dpost)
        rw [hdocs]
        apply pointwiseLe_append_left eventsExtend_refl
        apply pointwiseLe_cons _ (pointwiseLe_refl eventsExtend_refl dpost)
        exact ⟨[mkEvent now t actor role ch md bid], by rw [hr, applyEventToDoc_events]⟩

/-- C8: `addEvent` with event type RECORDED on an existing document sets the
status of the document to RECORDED and the status of the owning transaction to
RECORDED; every other event type leaves all transaction statuses unchanged,
and `createDocument` never changes any transaction status — so RECORDED
propagation is the only path by which a core operation sets a transaction's
status to RECORDED. -/
theorem claim8_recorded_propagation (hashFn : List Nat → String)
    (s : List Transaction) (docId : String) (t : EventType) (actor : String)
    (role : UserRole) (ch : String) (md : List (String × String)) (now : Nat)
    (bid : String) (transactionId : String) (content : List Nat)
    (fileName : String) (fileSize : Nat) (docType : String) :
    (∀ r s', addEvent s docId EventType.RECORDED actor role ch md now bid = (some r, s') →
      r.status = DocStatus.RECORDED ∧
      ∃ pre tx' post, s' = pre ++ tx' :: post ∧ tx'.status = TxStatus.RECORDED ∧
        r ∈ tx'.documents) ∧
    (t ≠ EventType.RECORDED →
      (addEvent s docId t actor role ch md now bid).2.map Transaction.status =
        s.map Transaction.status) ∧
    ((createDocument hashFn s transactionId content fileName fileSize docType
        actor role now bid).2.map Transaction.status = s.map Transaction.status) := by
  refine ⟨?_, ?_, ?_⟩
  · intro r s' h
    obtain ⟨pre, tx, post, dpre, d0, dpost, hs, hpre, hdocs, hdpre, hid, hr, hs'⟩ :=
      addEvent_eq_some docId EventType.RECORDED actor role ch md now bid s r s' h
    have hstat : r.status = DocStatus.RECORDED := by
      rw [hr, applyEventToDoc_status]
      rfl
    refine ⟨hstat, pre,
      recordTx { tx with documents := dpre ++ r :: dpost } EventType.RECORDED,
      post, hs', by rw [recordTx_recorded], ?_⟩
    rw [recordTx_recorded]
    show r ∈ dpre ++ r :: dpost
    simp
  · intro ht
    cases he : addEvent s docId t actor role ch md now bid with
    | mk r1 s1 =>
      cases r1 with
      | none =>
        have hst := addEvent_none_state docId t actor role ch md now bid s s1 he
        show s1.map Transaction.status = s.map Transaction.status
        rw [hst]
      | some r =>
        obtain ⟨pre, tx, post, dpre, d0, dpost, hs, hpre, hdocs, hdpre, hid, hr, hs'⟩ :=
          addEvent_eq_some docId t actor role ch md now bid s r s1 he
        show s1.map Transaction.status = s.map Transaction.status
        rw [hs', hs, recordTx_neutral _ _ ht]
        simp
  · cases hp : pushDoc s transactionId
        (newDocAsset hashFn content fileName fileSize docType actor role now bid) with
    | none =>
      have hstate : (createDocument hashFn s transactionId content fileName
          fileSize docType actor role now bid).2 = s := by
        simp [createDocument, hp]
      rw [hstate]
    | some s2 =>
      have hstate : (createDocument hashFn s transactionId content fileName
          fileSize docType actor role now bid).2 = s2 := by
        simp [createDocument, hp]
      rw [hstate]
      obtain ⟨pre, tx, post, hs, hpre, hid, hs2⟩ :=
        pushDoc_eq_some transactionId _ s s2 hp
      rw [hs2, hs]
      simp

/-- Witness for C8: on a ledger holding one freshly created document, a VIEW
event leaves both transaction statuses unchanged, and a RECORDED event yields
a document in RECORDED status inside a transaction in RECORDED status. -/
theorem claim8_witness :
    (addEvent ((createDocument (fun _ => "h1") (initialTransactions 0)
        "TX-2024-8492" [0] "note.txt" 1 "Note" "a@x.com" UserRole.ATTORNEY 5 "0xaa").2)
        "DOC-5" EventType.VIEW "v@x.com" UserRole.LENDER "h1" [] 6 "0xbb").2.map
        Transaction.status =
      ((createDocument (fun _ => "h1") (initialTransactions 0)
        "TX-2024-8492" [0] "note.txt" 1 "Note" "a@x.com" UserRole.ATTORNEY 5 "0xaa").2).map
        Transaction.status ∧
    (∃ r, (addEvent ((createDocument (fun _ => "h1") (initialTransactions 0)
        "TX-2024-8492" [0] "note.txt" 1 "Note" "a@x.com" UserRole.ATTORNEY 5 "0xaa").2)
        "DOC-5" EventType.RECORDED "c@x.gov" UserRole.COUNTY_CLERK "h1" [] 7 "0xcc").1 =
          some r ∧
      r.status = DocStatus.RECORDED ∧
      ∃ pre tx' post,
        (addEvent ((createDocument (fun _ => "h1") (initialTransactions 0)
          "TX-2024-8492" [0] "note.txt" 1 "Note" "a@x.com" UserRole.ATTORNEY 5 "0xaa").2)
          "DOC-5" EventType.RECORDED "c@x.gov" UserRole.COUNTY_CLERK "h1" [] 7 "0xcc").2 =
            pre ++ tx' :: post ∧
        tx'.status = TxStatus.RECORDED ∧ r ∈ tx'.documents) := by
  constructor
  · exact (claim8_recorded_propagation (fun _ => "h1")
      ((createDocument (fun _ => "h1") (initialTransactions 0)
        "TX-2024-8492" [0] "note.txt" 1 "Note" "a@x.com" UserRole.ATTORNEY 5 "0xaa").2)
      "DOC-5" EventType.VIEW "v@x.com" UserRole.LENDER "h1" [] 6 "0xbb"
      "TX-2024-8492" [0] "note.txt" 1 "Note").2.1 (by decide)
  · have hsome : (addEvent ((createDocument (fun _ => "h1") (initialTransactions 0)
        "TX-2024-8492" [0] "note.txt" 1 "Note" "a@x.com" UserRole.ATTORNEY 5 "0xaa").2)
        "DOC-5" EventType.RECORDED "c@x.gov" UserRole.COUNTY_CLERK "h1" [] 7 "0xcc").1.isSome = true := by
      decide
    obtain ⟨r, hr⟩ := Option.isSome_iff_exists.mp hsome
    have happ := (claim8_recorded_propagation (fun _ => "h1")
      ((createDocument (fun _ => "h1") (initialTransactions 0)
        "TX-2024-8492" [0] "note.txt" 1 "Note" "a@x.com" UserRole.ATTORNEY 5 "0xaa").2)
      "DOC-5" EventType.RECORDED "c@x.gov" UserRole.COUNTY_CLERK "h1" [] 7 "0xcc"
      "TX-2024-8492" [0] "note.txt" 1 "Note").1 r
      (addEvent ((createDocument (fun _ => "h1") (initialTransactions 0)
        "TX-2024-8492" [0] "note.txt" 1 "Note" "a@x.com" UserRole.ATTORNEY 5 "0xaa").2)
        "DOC-5" EventType.RECORDED "c@x.gov" UserRole.COUNTY_CLERK "h1" [] 7 "0xcc").2
      (by rw [← hr])
    exact ⟨r, hr, happ.1, happ.2⟩

/-- C10: `addEvent` with a status-neutral event type (VIEW, REVISION, or
NOTARIZATION — the latter absent from the transition table of the spec) appends
the new event to the found document and changes nothing else: the document
keeps its id, name, type, version, hash and status, the owning transaction
keeps its status, and every other document and transaction is untouched. -/
theorem claim10_neutral_events (s : List Transaction) (docId : String)
    (t : EventType) (actor : String) (role : UserRole) (ch : String)
    (md : List (String × String)) (now : Nat) (bid : String)
    (ht : t = EventType.VIEW ∨ t = EventType.REVISION ∨ t = EventType.NOTARIZATION) :
    ∀ r s', addEvent s docId t actor role ch md now bid = (some r, s') →
      ∃ pre tx post dpre d0 dpost,
        s = pre ++ tx :: post ∧ tx.documents = dpre ++ d0 :: dpost ∧
        d0.id = docId ∧
        r = { d0 with events := d0.events ++ [mkEvent now t actor role ch md bid] } ∧
        s' = pre ++ { tx with documents := dpre ++ r :: dpost } :: post := by
  intro r s' h
  have h1 : t ≠ EventType.APPROVAL := by rcases ht with rfl | rfl | rfl <;> simp
  have h2 : t ≠ EventType.SIGNATURE := by rcases ht with rfl | rfl | rfl <;> simp
  have h3 : t ≠ EventType.RECORDED := by rcases ht with rfl | rfl | rfl <;> simp
  obtain ⟨pre, tx, post, dpre, d0, dpost, hs, hpre, hdocs, hdpre, hid, hr, hs'⟩ :=
    addEvent_eq_some docId t actor role ch md now bid s r s' h
  refine ⟨pre, tx, post, dpre, d0, dpost, hs, hdocs, hid, ?_, ?_⟩
  · rw [hr, applyEventToDoc_neutral _ _ _ h1 h2 h3]
  · rw [hs', recordTx_neutral _ _ h3]

/-- Witness for C10: a REVISION event on a freshly created document appends
exactly one event and leaves the rest of the ledger decomposable as before. -/
theorem claim10_witness :
    ∃ r, (addEvent ((createDocument (fun _ => "h1") (initialTransactions 0)
        "TX-2024-8492" [0] "note.txt" 1 "Note" "a@x.com" UserRole.ATTORNEY 5 "0xaa").2)
        "DOC-5" EventType.REVISION "a@x.com" UserRole.ATTORNEY "h2" [] 6 "0xbb").1 =
          some r ∧
      ∃ pre tx post dpre d0 dpost,
        (createDocument (fun _ => "h1") (initialTransactions 0)
          "TX-2024-8492" [0] "note.txt" 1 "Note" "a@x.com" UserRole.ATTORNEY 5 "0xaa").2 =
            pre ++ tx :: post ∧
        tx.documents = dpre ++ d0 :: dpost ∧ d0.id = "DOC-5" ∧
        r = { d0 with events := d0.events ++
          [mkEvent 6 EventType.REVISION "a@x.com" UserRole.ATTORNEY "h2" [] "0xbb"] } ∧
        (addEvent ((createDocument (fun _ => "h1") (initialTransactions 0)
          "TX-2024-8492" [0] "note.txt" 1 "Note" "a@x.com" UserRole.ATTORNEY 5 "0xaa").2)
          "DOC-5" EventType.REVISION "a@x.com" UserRole.ATTORNEY "h2" [] 6 "0xbb").2 =
            pre ++ { tx with documents := dpre ++ r :: dpost } :: post := by
  have hsome : (addEvent ((createDocument (fun _ => "h1") (initialTransactions 0)
      "TX-2024-8492" [0] "note.txt" 1 "Note" "a@x.com" UserRole.ATTORNEY 5 "0xaa").2)
      "DOC-5" EventType.REVISION "a@x.com" UserRole.ATTORNEY "h2" [] 6 "0xbb").1.isSome = true := by
    decide
  obtain ⟨r, hr⟩ := Option.isSome_iff_exists.mp hsome
  refine ⟨r, hr, ?_⟩
  exact claim10_neutral_events
    ((createDocument (fun _ => "h1") (initialTransactions 0)
      "TX-2024-8492" [0] "note.txt" 1 "Note" "a@x.com" UserRole.ATTORNEY 5 "0xaa").2)
    "DOC-5" EventType.REVISION "a@x.com" UserRole.ATTORNEY "h2" [] 6 "0xbb"
    (Or.inr (Or.inl rfl)) r
    (addEvent ((createDocument (fun _ => "h1") (initialTransactions 0)
      "TX-2024-8492" [0] "note.txt" 1 "Note" "a@x.com" UserRole.ATTORNEY 5 "0xaa").2)
      "DOC-5" EventType.REVISION "a@x.com" UserRole.ATTORNEY "h2" [] 6 "0xbb").2
    (by rw [← hr])

/-- C1: `verifyDocument` succeeds exactly when some event of some document in
the ledger carries `docHash` equal to the hash of the given content; on
success it returns the first such (transaction, document, event) triple in
ledger scan order, on failure it returns `verified = false` with no document,
event or transaction; the browser variant agrees on its (transaction-free)
fields; and for a document created from content `c` into a ledger with no
prior documents, verification succeeds on `c` and fails on every content
whose hash differs. -/
theorem claim1_verifyDocument (hashFn : List Nat → String) (s : List Transaction)
    (c : List Nat) :
    ((verifyDocument hashFn s c).verified = true ↔
      ∃ p ∈ ledgerScan s, p.2.2.docHash = hashFn c) ∧
    (∀ tx d e, (ledgerScan s).find? (fun p => p.2.2.docHash == hashFn c) = some (tx, d, e) →
      verifyDocument hashFn s c =
        { verified := true, doc := some d, matchedEvent := some e, transaction := some tx }) ∧
    ((ledgerScan s).find? (fun p => p.2.2.docHash == hashFn c) = none →
      verifyDocument hashFn s c =
        { verified := false, doc := none, matchedEvent := none, transaction := none }) ∧
    ((verifyDocumentWeb hashFn s c).verified = (verifyDocument hashFn s c).verified ∧
      (verifyDocumentWeb hashFn s c).doc = (verifyDocument hashFn s c).doc ∧
      (verifyDocumentWeb hashFn s c).matchedEvent = (verifyDocument hashFn s c).matchedEvent) ∧
    (∀ s0 txId fileName fileSize docType actor role now bid d s',
      (∀ tx ∈ s0, tx.documents = ([] : List DocumentAsset)) →
      createDocument hashFn s0 txId c fileName fileSize docType actor role now bid =
        (some d, s') →
      ((verifyDocument hashFn s' c).verified = true ∧
       ∀ c2, hashFn c2 ≠ hashFn c → (verifyDocument hashFn s' c2).verified = false)) := by
  have hverified : ∀ (s1 : List Transaction) (c1 : List Nat),
      (verifyDocument hashFn s1 c1).verified = true ↔
        ∃ p ∈ ledgerScan s1, p.2.2.docHash = hashFn c1 := by
    intro s1 c1
    have hs := scanLedger_eq (hashFn c1) s1
    cases hm : (ledgerScan s1).find? (fun p => p.2.2.docHash == hashFn c1) with
    | some p =>
      obtain ⟨tx, d, e⟩ := p
      have hv : verifyDocument hashFn s1 c1 =
          { verified := true, doc := some d, matchedEvent := some e, transaction := some tx } := by
        rw [verifyDocument, hs, hm]
      rw [hv]
      exact iff_of_true rfl
        ⟨(tx, d, e), List.mem_of_find?_eq_some hm, by simpa using List.find?_some hm⟩
    | none =>
      have hv : verifyDocument hashFn s1 c1 =
          { verified := false, doc := none, matchedEvent := none, transaction := none } := by
        rw [verifyDocument, hs, hm]
      rw [hv]
      refine iff_of_false (by simp) ?_
      rintro ⟨p, hpmem, hpeq⟩
      have := List.find?_eq_none.mp hm p hpmem
      simp [hpeq] at this
  refine ⟨hverified s c, ?_, ?_, ?_, ?_⟩
  · intro tx d e hm
    rw [verifyDocument, scanLedger_eq (hashFn c) s, hm]
  · intro hm
    rw [verifyDocument, scanLedger_eq (hashFn c) s, hm]
  · cases hsc : scanLedger s (hashFn c) with
    | some p =>
      obtain ⟨tx, d, e⟩ := p
      simp [verifyDocument, verifyDocumentWeb, hsc]
    | none => simp [verifyDocument, verifyDocumentWeb, hsc]
  · intro s0 txId fileName fileSize docType actor role now bid d s' hempty hcreate
    obtain ⟨hd, hpush⟩ := createDocument_eq_some hashFn s0 txId c fileName
      fileSize docType actor role now bid d s' hcreate
    obtain ⟨pre, tx, post, hs0, hpre, hid, hs'⟩ := pushDoc_eq_some txId d s0 s' hpush
    have htxdocs : tx.documents = [] := hempty tx (by rw [hs0]; simp)
    have hdevents : d.events =
        [mkEvent now EventType.UPLOAD actor role (hashFn c)
          [("fileName", fileName), ("fileSize", natToDec fileSize)] bid] := by
      rw [hd]; rfl
    have hdhash : ∀ e ∈ d.events, e.docHash = hashFn c := by
      intro e he
      rw [hdevents] at he
      rcases List.mem_singleton.mp he with rfl
      rfl
    constructor
    · rw [hverified s' c]
      refine ⟨({ tx with documents := tx.documents ++ [d] }, d,
        mkEvent now EventType.UPLOAD actor role (hashFn c)
          [("fileName", fileName), ("fileSize", natToDec fileSize)] bid), ?_, rfl⟩
      rw [ledgerScan]
      refine List.mem_flatMap.mpr ⟨{ tx with documents := tx.documents ++ [d] },
        by rw [hs']; simp, ?_⟩
      refine List.mem_flatMap.mpr ⟨d, by simp, ?_⟩
      refine List.mem_map.mpr ⟨_, ?_, rfl⟩
      rw [hdevents]
      simp
    · intro c2 hne
      cases hb : (verifyDocument hashFn s' c2).verified with
      | false => rfl
      | true =>
        exfalso
        obtain ⟨p, hpmem, hpeq⟩ := (hverified s' c2).mp hb
        rw [ledgerScan] at hpmem
        obtain ⟨tx0, htx0, hinner⟩ := List.mem_flatMap.mp hpmem
        obtain ⟨d1, hd1, hinner2⟩ := List.mem_flatMap.mp hinner
        obtain ⟨e1, he1, rfl⟩ := List.mem_map.mp hinner2
        rw [hs'] at htx0
        rcases List.mem_append.mp htx0 with hx | hx
        · have : tx0 ∈ s0 := by rw [hs0]; exact List.mem_append_left _ hx
          rw [hempty tx0 this] at hd1
          simp at hd1
        · rcases List.mem_cons.mp hx with rfl | hx2
          · have hd1' : d1 ∈ tx.documents ++ [d] := hd1
            rw [htxdocs] at hd1'
            rcases List.mem_singleton.mp (by simpa using hd1') with rfl
            have := hdhash e1 he1
            simp only [this] at hpeq
            exact hne (hpeq.symm ▸ rfl)
          · have : tx0 ∈ s0 := by
              rw [hs0]
              exact List.mem_append_right _ (List.mem_cons_of_mem _ hx2)
            rw [hempty tx0 this] at hd1
            simp at hd1

/-- Witness for C1: creating a document from byte `[0]` on the seeded (empty)
ledger makes verification succeed for `[0]` and fail for `[1]`. -/
theorem claim1_witness :
    (verifyDocument hexEncode ((createDocument hexEncode (initialTransactions 0)
      "TX-2024-8492" [0] "note.txt" 1 "Note" "a@x.com" UserRole.ATTORNEY 5 "0xaa").2)
      [0]).verified = true ∧
    (verifyDocument hexEncode ((createDocument hexEncode (initialTransactions 0)
      "TX-2024-8492" [0] "note.txt" 1 "Note" "a@x.com" UserRole.ATTORNEY 5 "0xaa").2)
      [1]).verified = false := by
  have h := (claim1_verifyDocument hexEncode (initialTransactions 0) [0]).2.2.2.2
    (initialTransactions 0) "TX-2024-8492" "note.txt" 1 "Note" "a@x.com"
    UserRole.ATTORNEY 5 "0xaa"
    (newDocAsset hexEncode [0] "note.txt" 1 "Note" "a@x.com" UserRole.ATTORNEY 5 "0xaa")
    ((createDocument hexEncode (initialTransactions 0)
      "TX-2024-8492" [0] "note.txt" 1 "Note" "a@x.com" UserRole.ATTORNEY 5 "0xaa").2)
    (by decide) (by decide)
  exact ⟨h.1, h.2 [1] (by decide)⟩

/-- C2 (amended): the status after each `addEvent` is a function of the event
type alone — APPROVAL always yields APPROVED, SIGNATURE always SIGNED,
RECORDED always RECORDED, all other types leave the status unchanged —
regardless of the current status; consequently the status sequence is
monotone along the DRAFT → APPROVED → SIGNED → RECORDED ranking exactly when
no APPROVAL event is applied to a document ranked above APPROVED and no
SIGNATURE event to a document ranked above SIGNED. -/
theorem claim2_status_transitions (d : DocumentAsset) (e : BlockchainEvent)
    (t : EventType) :
    (applyEventToDoc d e t).status = nextStatusOfEvent d.status t ∧
    ((t = EventType.APPROVAL → statusRank d.status ≤ 1) →
     (t = EventType.SIGNATURE → statusRank d.status ≤ 2) →
     statusRank d.status ≤ statusRank (applyEventToDoc d e t).status) := by
  refine ⟨applyEventToDoc_status d e t, ?_⟩
  intro h1 h2
  rw [applyEventToDoc_status]
  cases t
  case UPLOAD => exact Nat.le_refl _
  case VIEW => exact Nat.le_refl _
  case APPROVAL => exact h1 rfl
  case SIGNATURE => exact h2 rfl
  case NOTARIZATION => exact Nat.le_refl _
  case RECORDED =>
    generalize d.status = st
    cases st <;> decide
  case REVISION => exact Nat.le_refl _

/-- Witness for C2: applying APPROVAL to a DRAFT document yields APPROVED and
does not decrease the status rank. -/
theorem claim2_witness :
    (applyEventToDoc
      { id := "DOC-5", name := "a", type := "T", currentVersion := 1,
        currentHash := "h1", status := DocStatus.DRAFT, events := [] }
      (mkEvent 6 EventType.APPROVAL "l@x.com" UserRole.LENDER "h1" [] "0xbb")
      EventType.APPROVAL).status = DocStatus.APPROVED ∧
    statusRank DocStatus.DRAFT ≤ statusRank (applyEventToDoc
      { id := "DOC-5", name := "a", type := "T", currentVersion := 1,
        currentHash := "h1", status := DocStatus.DRAFT, events := [] }
      (mkEvent 6 EventType.APPROVAL "l@x.com" UserRole.LENDER "h1" [] "0xbb")
      EventType.APPROVAL).status := by
  have h := claim2_status_transitions
    { id := "DOC-5", name := "a", type := "T", currentVersion := 1,
      currentHash := "h1", status := DocStatus.DRAFT, events := [] }
    (mkEvent 6 EventType.APPROVAL "l@x.com" UserRole.LENDER "h1" [] "0xbb")
    EventType.APPROVAL
  exact ⟨h.1, h.2 (fun _ => by decide) (fun _ => by decide)⟩

/-- Counterexample for C2 as frozen: after a SIGNATURE event the document is
SIGNED, yet a subsequent APPROVAL event moves its status back to APPROVED —
a backward edge (SIGNED → APPROVED) that the claim rules out. -/
theorem claim2_counterexample :
    ((addEvent ((createDocument (fun _ => "h1") (initialTransactions 0)
        "TX-2024-8492" [0] "note.txt" 1 "Note" "a@x.com" UserRole.ATTORNEY 5 "0xaa").2)
        "DOC-5" EventType.SIGNATURE "b@x.com" UserRole.BORROWER "h1" [] 6 "0xbb").1.map
        DocumentAsset.status = some DocStatus.SIGNED) ∧
    ((addEvent ((addEvent ((createDocument (fun _ => "h1") (initialTransactions 0)
        "TX-2024-8492" [0] "note.txt" 1 "Note" "a@x.com" UserRole.ATTORNEY 5 "0xaa").2)
        "DOC-5" EventType.SIGNATURE "b@x.com" UserRole.BORROWER "h1" [] 6 "0xbb").2)
        "DOC-5" EventType.APPROVAL "l@x.com" UserRole.LENDER "h1" [] 7 "0xcc").1.map
        DocumentAsset.status = some DocStatus.APPROVED) := by
  decide

/-- C6 (amended): `addEvent` never changes the `currentHash` of a document
(it is set once, at creation, to the `docHash` of the single UPLOAD event),
so the invariant "`currentHash` equals the `docHash` of the most recent
UPLOAD/REVISION event" holds exactly as long as every appended
UPLOAD/REVISION-typed event asserts a hash equal to the document's
`currentHash`; a REVISION carrying a different hash breaks it rather than
re-establishing it. -/
theorem claim6_currentHash (hashFn : List Nat → String) (content : List Nat)
    (fileName : String) (fileSize : Nat) (docType : String) (actor : String)
    (role : UserRole) (now : Nat) (bid : String) (d : DocumentAsset)
    (e : BlockchainEvent) (t : EventType) :
    (applyEventToDoc d e t).currentHash = d.currentHash ∧
    lastUploadRevHash (newDocAsset hashFn content fileName fileSize docType
        actor role now bid) =
      some (newDocAsset hashFn content fileName fileSize docType actor role
        now bid).currentHash ∧
    (lastUploadRevHash d = some d.currentHash →
      (isContentEvent e = false ∨ e.docHash = d.currentHash) →
      lastUploadRevHash (applyEventToDoc d e t) =
        some (applyEventToDoc d e t).currentHash) := by
  refine ⟨applyEventToDoc_currentHash d e t, rfl, ?_⟩
  intro hinv hdisj
  have hev := applyEventToDoc_events d e t
  have hch := applyEventToDoc_currentHash d e t
  rw [lastUploadRevHash, hev, hch, List.filter_append]
  cases hce : isContentEvent e with
  | false =>
    have hf : List.filter isContentEvent [e] = [] := by simp [hce]
    rw [hf, List.append_nil]
    rw [lastUploadRevHash] at hinv
    exact hinv
  | true =>
    have he : e.docHash = d.currentHash := by
      rcases hdisj with hfalse | heq
      · rw [hce] at hfalse; simp at hfalse
      · exact heq
    have hf : List.filter isContentEvent [e] = [e] := by simp [hce]
    rw [hf, List.map_append]
    show ((d.events.filter isContentEvent).map BlockchainEvent.docHash ++
      [e.docHash]).getLast? = some d.currentHash
    rw [List.getLast?_concat, he]

/-- Witness for C6: a VIEW event (not a content event) preserves both the
`currentHash` and the invariant on a freshly created document. -/
theorem claim6_witness :
    (applyEventToDoc (newDocAsset (fun _ => "h1") [0] "a.txt" 1 "T" "x@y.com"
        UserRole.ATTORNEY 5 "0xaa")
      (mkEvent 6 EventType.VIEW "v@x.com" UserRole.LENDER "h1" [] "0xbb")
      EventType.VIEW).currentHash = "h1" ∧
    lastUploadRevHash (applyEventToDoc (newDocAsset (fun _ => "h1") [0] "a.txt" 1
        "T" "x@y.com" UserRole.ATTORNEY 5 "0xaa")
      (mkEvent 6 EventType.VIEW "v@x.com" UserRole.LENDER "h1" [] "0xbb")
      EventType.VIEW) = some "h1" := by
  have h := claim6_currentHash (fun _ => "h1") [0] "a.txt" 1 "T" "x@y.com"
    UserRole.ATTORNEY 5 "0xaa"
    (newDocAsset (fun _ => "h1") [0] "a.txt" 1 "T" "x@y.com" UserRole.ATTORNEY 5 "0xaa")
    (mkEvent 6 EventType.VIEW "v@x.com" UserRole.LENDER "h1" [] "0xbb")
    EventType.VIEW
  have h3 := h.2.2 (by decide) (Or.inl (by decide))
  constructor
  · rw [h.1]
    rfl
  · rw [h3, h.1]
    rfl

/-- Counterexample for C6 as frozen: appending a REVISION event whose asserted
hash `h2` differs from the `currentHash` `h1` of the document does not update
`currentHash` — afterwards the most recent UPLOAD/REVISION event carries `h2`
while `currentHash` is still `h1`, so the claimed equality fails instead of
being re-established. -/
theorem claim6_counterexample :
    ((addEvent ((createDocument (fun _ => "h1") (initialTransactions 0)
        "TX-2024-8492" [0] "note.txt" 1 "Note" "a@x.com" UserRole.ATTORNEY 5 "0xaa").2)
        "DOC-5" EventType.REVISION "a@x.com" UserRole.ATTORNEY "h2" [] 6 "0xbb").1.map
        lastUploadRevHash = some (some "h2")) ∧
    ((addEvent ((createDocument (fun _ => "h1") (initialTransactions 0)
        "TX-2024-8492" [0] "note.txt" 1 "Note" "a@x.com" UserRole.ATTORNEY 5 "0xaa").2)
        "DOC-5" EventType.REVISION "a@x.com" UserRole.ATTORNEY "h2" [] 6 "0xbb").1.map
        DocumentAsset.currentHash = some "h1") ∧
    ("h1" : String) ≠ "h2" := by
  decide

/-- C7 (amended): whenever the 32-byte digest path is taken — always in the
Node implementation, and in the browser implementation whenever the crypto
API is available — the computed hash is independent of the file name, file
size and current time (so repeated calls agree), both implementations agree,
and the output is exactly 64 lowercase hexadecimal characters.  (The browser
fallback without the crypto API is the counterexample to the unconditional
claim.) -/
theorem claim7_hash_deterministic (digest : List Nat → List Nat) (c : List Nat)
    (h32 : (digest c).length = 32) (hb : ∀ b ∈ digest c, b < 256) :
    (∀ n1 s1 t1 n2 s2 t2, computeFileHashWeb digest true n1 s1 c t1 =
      computeFileHashWeb digest true n2 s2 c t2) ∧
    (∀ n1 s1 t1, computeFileHashWeb digest true n1 s1 c t1 =
      computeFileHashNode digest c) ∧
    (computeFileHashNode digest c).length = 64 ∧
    (∀ ch ∈ (computeFileHashNode digest c).data, isHexChar ch = true) := by
  refine ⟨fun n1 s1 t1 n2 s2 t2 => rfl, fun n1 s1 t1 => rfl, ?_, ?_⟩
  · show (hexEncode (digest c)).length = 64
    rw [hexEncode_length (digest c) hb, h32]
  · exact hexEncode_chars (digest c)

/-- Witness for C7: with a concrete 32-byte digest the hash has 64 characters
and is independent of name, size and time. -/
theorem claim7_witness :
    (computeFileHashNode (fun _ => List.replicate 32 0) []).length = 64 ∧
    computeFileHashWeb (fun _ => List.replicate 32 0) true "a" 1 [] 0 =
      computeFileHashWeb (fun _ => List.replicate 32 0) true "b" 2 [] 5 := by
  have h := claim7_hash_deterministic (fun _ => List.replicate 32 0) []
    (by decide) (by decide)
  exact ⟨h.2.2.1, h.1 "a" 1 0 "b" 2 5⟩

/-- Counterexample for C7 as frozen: in an environment without the crypto API
the browser `computeFileHash` returns the mock string
`mock-hash-<name>-<size>-<Date.now()>` — two calls on the same content at
different times return different values, and the output is not 64 characters,
refuting determinism and fixed-length output "in every execution
environment". -/
theorem claim7_counterexample :
    computeFileHashWeb (fun _ => List.replicate 32 0) false "a" 1 [0] 0 ≠
      computeFileHashWeb (fun _ => List.replicate 32 0) false "a" 1 [0] 1 ∧
    (computeFileHashWeb (fun _ => List.replicate 32 0) false "a" 1 [0] 0).length ≠ 64 := by
  decide

/-- Total length of the hex digit lists rendered from a list of nibbles. -/
theorem hexDigits_flatten_length (r : List Nat) (h : ∀ x ∈ r, x < 16) :
    (((r.map natToHex).map String.data).flatten).length = r.length := by
  induction r with
  | nil => rfl
  | cons x rest ih =>
    simp only [List.map_cons, List.flatten_cons, List.length_append, List.length_cons]
    have hx : (natToHex x).data.length = 1 := natToHex_length_of_lt x (h x (by simp))
    rw [hx, ih (fun y hy => h y (by simp [hy]))]
    omega

theorem generateBlockId_data (r : List Nat) :
    (generateBlockId r).data = '0' :: 'x' :: ((r.map natToHex).map String.data).flatten := by
  rw [generateBlockId, String.data_append, join_data]
  rfl

/-- C9 (amended): document ids have the form `DOC-<decimal clock value>` —
so two documents created at *distinct* clock values have distinct ids (the
counterexample shows two creations in the same millisecond collide), the id
suffix is all decimal digits with at least 13 of them once the clock value
has reached `10^12`, and `generateBlockId` over 64 random nibbles produces
`0x` followed by exactly 64 lowercase hex characters. -/
theorem claim9_ids_and_formats (hashFn : List Nat → String) (s : List Transaction)
    (txId1 txId2 : String) (c1 c2 : List Nat) (fn1 fn2 : String) (fs1 fs2 : Nat)
    (dt1 dt2 a1 a2 : String) (ro1 ro2 : UserRole) (now1 now2 : Nat)
    (bid1 bid2 : String) (r : List Nat) :
    (∀ d1 s1 d2 s2, now1 ≠ now2 →
      createDocument hashFn s txId1 c1 fn1 fs1 dt1 a1 ro1 now1 bid1 = (some d1, s1) →
      createDocument hashFn s1 txId2 c2 fn2 fs2 dt2 a2 ro2 now2 bid2 = (some d2, s2) →
      d1.id ≠ d2.id) ∧
    (∀ d1 s1, createDocument hashFn s txId1 c1 fn1 fs1 dt1 a1 ro1 now1 bid1 =
        (some d1, s1) →
      d1.id = "DOC-" ++ natToDec now1 ∧
      (∀ ch ∈ (natToDec now1).data, ch.isDigit = true) ∧
      (10 ^ 12 ≤ now1 → 13 ≤ (natToDec now1).length)) ∧
    (r.length = 64 → (∀ x ∈ r, x < 16) →
      (generateBlockId r).length = 66 ∧
      (generateBlockId r).data.take 2 = ['0', 'x'] ∧
      (∀ ch ∈ (generateBlockId r).data.drop 2, isHexChar ch = true)) := by
  refine ⟨?_, ?_, ?_⟩
  · intro d1 s1 d2 s2 hne h1 h2
    have hd1 := (createDocument_eq_some hashFn s txId1 c1 fn1 fs1 dt1 a1 ro1
      now1 bid1 d1 s1 h1).1
    have hd2 := (createDocument_eq_some hashFn s1 txId2 c2 fn2 fs2 dt2 a2 ro2
      now2 bid2 d2 s2 h2).1
    rw [hd1, hd2]
    show "DOC-" ++ natToDec now1 ≠ "DOC-" ++ natToDec now2
    exact docId_inj now1 now2 hne
  · intro d1 s1 h1
    have hd1 := (createDocument_eq_some hashFn s txId1 c1 fn1 fs1 dt1 a1 ro1
      now1 bid1 d1 s1 h1).1
    refine ⟨by rw [hd1]; rfl, natToDec_chars now1, fun hbig => ?_⟩
    have := natToDec_length_ge 12 now1 hbig
    omega
  · intro hlen hbound
    refine ⟨?_, ?_, ?_⟩
    · show (generateBlockId r).data.length = 66
      rw [generateBlockId_data]
      simp only [List.length_cons]
      rw [hexDigits_flatten_length r hbound, hlen]
    · rw [generateBlockId_data]
      rfl
    · intro ch hch
      rw [generateBlockId_data] at hch
      have hch2 : ch ∈ ((r.map natToHex).map String.data).flatten := hch
      obtain ⟨l, hl, hcl⟩ := List.mem_flatten.mp hch2
      obtain ⟨x, hx, rfl⟩ := List.mem_map.mp hl
      obtain ⟨y, hy, rfl⟩ := List.mem_map.mp hx
      exact natToHex_chars y ch hcl

/-- Witness for C9: creating documents at clock values `10^12` and `10^12 + 1`
yields the distinct ids `DOC-1000000000000` and `DOC-1000000000001`, and a
concrete nibble sequence yields a well-formed 66-character block id. -/
theorem claim9_witness :
    (createDocument hexEncode (initialTransactions 0) "TX-2024-8492" [0] "a.txt"
        1 "T" "x@y.com" UserRole.ATTORNEY 1000000000000 "0xaa").1.map
        DocumentAsset.id ≠
      (createDocument hexEncode ((createDocument hexEncode (initialTransactions 0)
        "TX-2024-8492" [0] "a.txt" 1 "T" "x@y.com" UserRole.ATTORNEY
        1000000000000 "0xaa").2) "TX-2024-9921" [1] "b.txt" 1 "T" "z@y.com"
        UserRole.LENDER 1000000000001 "0xbb").1.map DocumentAsset.id ∧
    (generateBlockId (List.replicate 64 0)).length = 66 := by
  constructor
  · have hs1 : (createDocument hexEncode (initialTransactions 0) "TX-2024-8492"
        [0] "a.txt" 1 "T" "x@y.com" UserRole.ATTORNEY 1000000000000 "0xaa").1.isSome = true := by
      decide
    have hs2 : (createDocument hexEncode ((createDocument hexEncode
        (initialTransactions 0) "TX-2024-8492" [0] "a.txt" 1 "T" "x@y.com"
        UserRole.ATTORNEY 1000000000000 "0xaa").2) "TX-2024-9921" [1] "b.txt" 1
        "T" "z@y.com" UserRole.LENDER 1000000000001 "0xbb").1.isSome = true := by
      decide
    obtain ⟨d1, hd1⟩ := Option.isSome_iff_exists.mp hs1
    obtain ⟨d2, hd2⟩ := Option.isSome_iff_exists.mp hs2
    have hne := (claim9_ids_and_formats hexEncode (initialTransactions 0)
      "TX-2024-8492" "TX-2024-9921" [0] [1] "a.txt" "b.txt" 1 1 "T" "T"
      "x@y.com" "z@y.com" UserRole.ATTORNEY UserRole.LENDER
      1000000000000 1000000000001 "0xaa" "0xbb" []).1 d1
      ((createDocument hexEncode (initialTransactions 0) "TX-2024-8492" [0]
        "a.txt" 1 "T" "x@y.com" UserRole.ATTORNEY 1000000000000 "0xaa").2) d2
      ((createDocument hexEncode ((createDocument hexEncode (initialTransactions 0)
        "TX-2024-8492" [0] "a.txt" 1 "T" "x@y.com" UserRole.ATTORNEY
        1000000000000 "0xaa").2) "TX-2024-9921" [1] "b.txt" 1 "T" "z@y.com"
        UserRole.LENDER 1000000000001 "0xbb").2)
      (by omega) (by rw [← hd1]) (by rw [← hd2])
    rw [hd1, hd2]
    simp [hne]
  · exact ((claim9_ids_and_formats hexEncode (initialTransactions 0)
      "TX-2024-8492" "TX-2024-9921" [0] [1] "a.txt" "b.txt" 1 1 "T" "T"
      "x@y.com" "z@y.com" UserRole.ATTORNEY UserRole.LENDER
      1000000000000 1000000000001 "0xaa" "0xbb" (List.replicate 64 0)).2.2
      (by simp) (fun x hx => by
        have := List.eq_of_mem_replicate hx
        omega)).1

/-- Counterexample for C9 as frozen: two documents created in the same
millisecond (`Date.now()` = 7 for both) receive the same id `DOC-7`, so ids
are not unique across a ledger lifetime — afterwards two distinct documents
with id `DOC-7` exist in the ledger. -/
theorem claim9_counterexample :
    ((createDocument (fun _ => "h1") (initialTransactions 0) "TX-2024-8492" [0]
        "a.txt" 1 "T" "x@y.com" UserRole.ATTORNEY 7 "0xaa").1.map
        DocumentAsset.id = some "DOC-7") ∧
    ((createDocument (fun _ => "h2") ((createDocument (fun _ => "h1")
        (initialTransactions 0) "TX-2024-8492" [0] "a.txt" 1 "T" "x@y.com"
        UserRole.ATTORNEY 7 "0xaa").2) "TX-2024-9921" [1] "b.txt" 1 "T"
        "z@y.com" UserRole.LENDER 7 "0xbb").1.map DocumentAsset.id =
      some "DOC-7") ∧
    ((createDocument (fun _ => "h1") (initialTransactions 0) "TX-2024-8492" [0]
        "a.txt" 1 "T" "x@y.com" UserRole.ATTORNEY 7 "0xaa").1 ≠
      (createDocument (fun _ => "h2") ((createDocument (fun _ => "h1")
        (initialTransactions 0) "TX-2024-8492" [0] "a.txt" 1 "T" "x@y.com"
        UserRole.ATTORNEY 7 "0xaa").2) "TX-2024-9921" [1] "b.txt" 1 "T"
        "z@y.com" UserRole.LENDER 7 "0xbb").1) ∧
    countDocsWithId ((createDocument (fun _ => "h2") ((createDocument (fun _ => "h1")
        (initialTransactions 0) "TX-2024-8492" [0] "a.txt" 1 "T" "x@y.com"
        UserRole.ATTORNEY 7 "0xaa").2) "TX-2024-9921" [1] "b.txt" 1 "T"
        "z@y.com" UserRole.LENDER 7 "0xbb").2) "DOC-7" = 2 := by
  decide

end BlockchainDemo
